import Mathlib

/-!
Verification development for the buybot repository: a shallow embedding of the
swap-detection, position-tracking, pricing, and persistence core
(src/blockchain/MonitoringService.ts, src/blockchain/PriceService.ts,
src/database/Database.ts), together with theorems settling the behavioural
claims about that core.

Conventions of the embedding:
- JavaScript strings (addresses, hashes, labels) are Lean String values;
  JavaScript toLowerCase on the ASCII range is the function lowerStr below.
- JavaScript numbers are modelled as rationals; decimal display helpers
  (toFixed and friends) are modelled with explicit rounding where the
  claims depend on them.
- Fallible external calls (RPC, HTTP) are modelled as Option-valued inputs
  (none meaning the call failed or returned no usable data); the control
  flow around them is translated from the source.
- The PostgreSQL tables are modelled as lists of rows inside a DB structure
  and each Database.ts method as a pure function on that structure.
-/

namespace Buybot

/-- ASCII lowercasing of a single character, as JavaScript toLowerCase acts on
the ASCII range used by hex addresses and transaction hashes. -/
def lowerChar (c : Char) : Char :=
  if 65 ≤ c.toNat ∧ c.toNat ≤ 90 then Char.ofNat (c.toNat + 32) else c

/-- Model of the JavaScript String.prototype.toLowerCase calls the source
applies to addresses and hashes. -/
def lowerStr (s : String) : String := String.mk (s.data.map lowerChar)

theorem toNat_ofNat_valid (n : ℕ) (h : n.isValidChar) : (Char.ofNat n).toNat = n := by
  simp [Char.ofNat, h]
  rfl

theorem lowerChar_idem (c : Char) : lowerChar (lowerChar c) = lowerChar c := by
  by_cases h : 65 ≤ c.toNat ∧ c.toNat ≤ 90
  · have h1 : lowerChar c = Char.ofNat (c.toNat + 32) := by unfold lowerChar; rw [if_pos h]
    have hv : (c.toNat + 32).isValidChar := Or.inl (by omega)
    have ht : (Char.ofNat (c.toNat + 32)).toNat = c.toNat + 32 := toNat_ofNat_valid _ hv
    rw [h1]
    unfold lowerChar
    rw [ht]
    rw [if_neg (by omega)]
  · have h1 : lowerChar c = c := by unfold lowerChar; rw [if_neg h]
    rw [h1]
    exact h1

theorem lowerStr_idem (s : String) : lowerStr (lowerStr s) = lowerStr s := by
  unfold lowerStr
  refine congrArg String.mk ?_
  have hdata : (String.mk (s.data.map lowerChar)).data = s.data.map lowerChar := rfl
  rw [hdata, List.map_map]
  exact List.map_congr_left (fun c _ => lowerChar_idem c)

theorem lowerStr_eq_empty_iff (s : String) : lowerStr s = "" ↔ s = "" := by
  constructor
  · intro h
    have hd : s.data.map lowerChar = ([] : List Char) := congrArg String.data h
    have hnil : s.data = [] := List.map_eq_nil_iff.mp hd
    cases s with
    | mk data => simp_all
  · intro h
    rw [h]
    rfl

/-!
## Database model (src/database/Database.ts)

Rows of the four tables the claims touch, and the methods acting on them.
SQL semantics are modelled directly: `ON CONFLICT ... DO NOTHING` as a
membership test before append, `ON CONFLICT ... DO UPDATE` as update-or-append,
`SELECT ... WHERE` as a filter, `rows[0]` as `head?`, and `SELECT DISTINCT`
as `dedup` of the selected tuples.
-/

/-- A row of the watched_tokens table (Database.ts, createTables). -/
structure WatchedTokenRow where
  chat_id : ℤ
  token_address : String
  symbol : String
  name : String
  alert_media_type : Option String
  alert_media_file_id : Option String
deriving DecidableEq, Repr

/-- A row of the detected_transactions table; tx_hash carries a UNIQUE
constraint in the schema. -/
structure DetectedTransactionRow where
  token_address : String
  tx_hash : String
  type : String
  trader_address : String
  token_amount : String
  eth_amount : String
deriving DecidableEq, Repr

/-- A row of the trader_positions table, keyed by (token_address, trader_address). -/
structure TraderPositionRow where
  token_address : String
  trader_address : String
  holdings_token : String
deriving DecidableEq, Repr

/-- A row of the chat_settings table (the fields the monitoring path reads). -/
structure ChatSettingsRow where
  chat_id : ℤ
  min_buy_usdc : ℚ
  icon_multiplier : ℤ
  buy_icon_pattern : String
  alert_media_type : Option String
  alert_media_file_id : Option String
deriving DecidableEq, Repr

/-- The persistent state that the monitoring pipeline reads and writes. -/
structure DB where
  watched_tokens : List WatchedTokenRow
  detected_transactions : List DetectedTransactionRow
  trader_positions : List TraderPositionRow
  chat_settings : List ChatSettingsRow
deriving DecidableEq, Repr

/-- Database.addWatchedToken: INSERT with ON CONFLICT (chat_id, token_address)
DO NOTHING, storing the token address lowercased. -/
def addWatchedToken (db : DB) (chatId : ℤ) (tokenAddress symbol name : String) : DB :=
  if db.watched_tokens.any
      (fun r => r.chat_id == chatId && r.token_address == lowerStr tokenAddress) then db
  else { db with watched_tokens :=
          db.watched_tokens ++ [⟨chatId, lowerStr tokenAddress, symbol, name, none, none⟩] }

/-- The projection of a watched_tokens row returned by getTokenWatchers. -/
structure WatcherRow where
  chat_id : ℤ
  alert_media_type : Option String
  alert_media_file_id : Option String
deriving DecidableEq, Repr

/-- The JavaScript row normalisation getTokenWatchers applies: media type
restricted to photo/animation, falsy file id mapped to null. -/
def watcherRowOf (r : WatchedTokenRow) : WatcherRow :=
  { chat_id := r.chat_id
    alert_media_type :=
      if r.alert_media_type == some "photo" || r.alert_media_type == some "animation" then
        r.alert_media_type
      else none
    alert_media_file_id :=
      match r.alert_media_file_id with
      | some s => if s == "" then none else some s
      | none => none }

/-- Database.getTokenWatchers: SELECT DISTINCT chat_id, alert_media_type,
alert_media_file_id FROM watched_tokens WHERE token_address = lower(address). -/
def getTokenWatchers (db : DB) (tokenAddress : String) : List WatcherRow :=
  ((db.watched_tokens.filter
    (fun r => r.token_address == lowerStr tokenAddress)).map watcherRowOf).dedup

/-- Database.saveDetectedTransaction: INSERT ... ON CONFLICT (tx_hash)
DO NOTHING, returning whether a row was inserted; the token address is stored
lowercased, the hash and trader address as given. -/
def saveDetectedTransaction (db : DB)
    (tokenAddress txHash type traderAddress tokenAmount ethAmount : String) : DB × Bool :=
  if db.detected_transactions.any (fun r => r.tx_hash == txHash) then (db, false)
  else ({ db with detected_transactions :=
            db.detected_transactions ++
              [⟨lowerStr tokenAddress, txHash, type, traderAddress, tokenAmount, ethAmount⟩] },
        true)

/-- Database.hasDetectedTransaction: SELECT 1 ... WHERE tx_hash = $1 LIMIT 1. -/
def hasDetectedTransaction (db : DB) (txHash : String) : Bool :=
  db.detected_transactions.any (fun r => r.tx_hash == txHash)

/-- Database.getTraderPosition: SELECT ... WHERE token_address = lower(token)
AND trader_address = lower(trader), taking rows[0]. -/
def getTraderPosition (db : DB) (tokenAddress traderAddress : String) :
    Option TraderPositionRow :=
  (db.trader_positions.filter
    (fun r => r.token_address == lowerStr tokenAddress &&
              r.trader_address == lowerStr traderAddress)).head?

/-- Database.setTraderPosition: INSERT ... ON CONFLICT (token_address,
trader_address) DO UPDATE SET holdings_token = EXCLUDED.holdings_token, with
both key columns lowercased. -/
def setTraderPosition (db : DB) (tokenAddress traderAddress holdingsToken : String) : DB :=
  if db.trader_positions.any
      (fun r => r.token_address == lowerStr tokenAddress &&
                r.trader_address == lowerStr traderAddress) then
    { db with trader_positions :=
        db.trader_positions.map (fun r =>
          if r.token_address == lowerStr tokenAddress &&
             r.trader_address == lowerStr traderAddress then
            { r with holdings_token := holdingsToken }
          else r) }
  else
    { db with trader_positions :=
        db.trader_positions ++ [⟨lowerStr tokenAddress, lowerStr traderAddress, holdingsToken⟩] }

/-- The chat settings record getChatSettings returns (defaults applied). -/
structure ChatSettings where
  min_buy_usdc : ℚ
  icon_multiplier : ℤ
  buy_icon_pattern : String
  alert_media_type : Option String
  alert_media_file_id : Option String
deriving DecidableEq, Repr

/-- Database.getChatSettings: row lookup with defaults when the chat has no
row (min_buy_usdc 0, icon_multiplier 1), and per-field normalisation. -/
def getChatSettings (db : DB) (chatId : ℤ) : ChatSettings :=
  match (db.chat_settings.filter (fun r => r.chat_id == chatId)).head? with
  | none =>
      { min_buy_usdc := 0
        icon_multiplier := 1
        buy_icon_pattern := "游릭丘덢잺"
        alert_media_type := none
        alert_media_file_id := none }
  | some row =>
      { min_buy_usdc := row.min_buy_usdc
        icon_multiplier := max 1 row.icon_multiplier
        buy_icon_pattern := row.buy_icon_pattern
        alert_media_type :=
          if row.alert_media_type == some "photo" || row.alert_media_type == some "animation" then
            row.alert_media_type
          else none
        alert_media_file_id :=
          match row.alert_media_file_id with
          | some s => if s == "" then none else some s
          | none => none }

/-- Database.disableChatWatchers: DELETE FROM watched_tokens WHERE chat_id = $1. -/
def disableChatWatchers (db : DB) (chatId : ℤ) : DB :=
  { db with watched_tokens := db.watched_tokens.filter (fun r => !(r.chat_id == chatId)) }

/-!
## Event classification (MonitoringService.classifyTransfer)
-/

/-- The fields of an ethers TransactionResponse the classifier reads:
tx.from is always present, tx.to may be null (contract creation). -/
structure TransactionResponse where
  txFrom : String
  txTo : Option String
deriving DecidableEq, Repr

/-- The classification result: type is always the literal buy string. -/
structure Classification where
  type : String
  trader : String
deriving DecidableEq, Repr

/-- MonitoringService.classifyTransfer (lines 220-242): a Transfer log is a
buy when its sender is the router, or when the transaction goes to the router
and the transfer recipient is the transaction sender; anything else is null.
A null tx.to is compared as the empty string (the JavaScript or-empty
fallback). -/
def classifyTransfer (routerAddress : String) (fromA toA : String)
    (tx : TransactionResponse) : Option Classification :=
  let normalizedFrom := lowerStr fromA
  let normalizedTo := lowerStr toA
  let normalizedRouter := lowerStr routerAddress
  let normalizedTxFrom := lowerStr tx.txFrom
  let normalizedTxTo := (tx.txTo.map lowerStr).getD ""
  if normalizedFrom = normalizedRouter then some ⟨"buy", toA⟩
  else if normalizedTxTo = normalizedRouter then
    if normalizedTo = normalizedTxFrom then some ⟨"buy", toA⟩ else none
  else none

/-!
## Position labels (MonitoringService.formatPositionPercent /
computePositionLabel)

JavaScript numbers become rationals; Number.prototype.toFixed(2) becomes
rounding of 100 * x to the nearest integer (half up) followed by decimal
rendering, which agrees with toFixed on every value the claims mention.
-/

/-- Renders a nonnegative amount of hundredths as a two-decimal string. -/
def natDecimals2 (n : ℕ) : String :=
  toString (n / 100) ++ "." ++
    (if n % 100 < 10 then "0" ++ toString (n % 100) else toString (n % 100))

/-- Model of Number.prototype.toFixed(2). -/
def ratToFixed2 (q : ℚ) : String :=
  if round (q * 100) < 0 then "-" ++ natDecimals2 (round (q * 100)).natAbs
  else natDecimals2 (round (q * 100)).toNat

/-- MonitoringService.formatPositionPercent (lines 325-333): N/A for a
non-positive baseline (rationals are always finite, so the isFinite guard of
the source is vacuous here), otherwise the signed two-decimal percent change
of pct = ((current - previous) / previous) * 100. -/
def formatPositionPercent (current previous : ℚ) : String :=
  if previous ≤ 0 then "N/A"
  else
    (if 0 ≤ (current - previous) / previous * 100 then "+" else "") ++
      ratToFixed2 ((current - previous) / previous * 100) ++ "%"

/-- MonitoringService.computePositionLabel (lines 410-458). The snapshot
argument is the parsed holdings of the persisted trader position (none when
no row exists) and hasPriorInteraction is the outcome of the
hasPriorTokenInteraction call the source makes on the no-usable-snapshot
path. -/
def computePositionLabel (previousSnapshot : Option ℚ) (hasPriorInteraction : Bool)
    (currentHoldingsNumeric deltaAmountNumeric : ℚ) : String :=
  let previousHoldingsNumeric := previousSnapshot.getD 0
  let inferredPrevious := max 0 (currentHoldingsNumeric - deltaAmountNumeric)
  if previousSnapshot.isSome ∧ 0 < previousHoldingsNumeric then
    if previousHoldingsNumeric ≤ currentHoldingsNumeric then
      formatPositionPercent currentHoldingsNumeric previousHoldingsNumeric
    else if 0 < inferredPrevious then
      formatPositionPercent currentHoldingsNumeric inferredPrevious
    else "NEW"
  else if !hasPriorInteraction then "NEW"
  else if inferredPrevious ≤ 0 then "NEW"
  else formatPositionPercent currentHoldingsNumeric inferredPrevious

/-!
## Historical activity lookup (MonitoringService.hasPriorTokenInteraction)

The chain is modelled as the full list of Transfer events of the token
contract; queryFilter with a from-topic or to-topic filter and a block range
becomes a filter over that list. The three RPC outcomes the source
distinguishes (plain success, a range-limit rejection answered by the
windowed fallback, any other error) are an explicit input.
-/

/-- A Transfer event as returned by queryFilter. -/
structure TransferEv where
  txHash : String
  blockNumber : ℕ
  txIndex : ℕ
  fromAddr : String
  toAddr : String
deriving DecidableEq, Repr

/-- The inner hasPriorInEvents helper (lines 251-273): an event counts as
prior when its hash is nonempty and differs from the current hash and it sits
in an earlier block, or in the same block with a smaller transaction index. -/
def hasPriorInEvents (events : List TransferEv) (txHash : String)
    (blockNumber txIndex : ℕ) : Bool :=
  events.any fun evt =>
    if lowerStr evt.txHash = "" ∨ lowerStr evt.txHash = lowerStr txHash then false
    else if evt.blockNumber < blockNumber then true
    else if blockNumber < evt.blockNumber then false
    else decide (evt.txIndex < txIndex)

/-- queryFilter with Transfer(wallet, null) over [startB, endB]. -/
def queryTransferFrom (chain : List TransferEv) (wallet : String)
    (startB endB : ℕ) : List TransferEv :=
  chain.filter fun evt =>
    lowerStr evt.fromAddr == lowerStr wallet &&
      startB ≤ evt.blockNumber && evt.blockNumber ≤ endB

/-- queryFilter with Transfer(null, wallet) over [startB, endB]. -/
def queryTransferTo (chain : List TransferEv) (wallet : String)
    (startB endB : ℕ) : List TransferEv :=
  chain.filter fun evt =>
    lowerStr evt.toAddr == lowerStr wallet &&
      startB ≤ evt.blockNumber && evt.blockNumber ≤ endB

/-- The backward windowed fallback (lines 303-317): windows of 1000 blocks
walking from endB toward block 0, true on the first window containing a prior
match, false when the windows are exhausted. The loop variable endB decreases
by 1000 each turn and the JavaScript loop stops once it would go negative,
which over the naturals means one final window when endB < 1000. -/
def windowedPriorScan (chain : List TransferEv) (wallet currentTxHash : String)
    (upToBlock currentTxIndex : ℕ) : (endB : ℕ) → Bool := fun endB =>
  let startB := endB - 999
  let fromEvents := queryTransferFrom chain wallet startB endB
  let toEvents := queryTransferTo chain wallet startB endB
  if hasPriorInEvents (fromEvents ++ toEvents) currentTxHash upToBlock currentTxIndex then
    true
  else if endB < 1000 then false
  else windowedPriorScan chain wallet currentTxHash upToBlock currentTxIndex (endB - 1000)
termination_by endB => endB
decreasing_by omega

/-- The three ways the direct full-range queryFilter call can behave. -/
inductive RpcBehavior where
  | ok
  | rangeLimited
  | failed
deriving DecidableEq, Repr

/-- MonitoringService.hasPriorTokenInteraction (lines 244-323): on a plain
success the full [0, upToBlock] range is inspected; on a range-limit error
the windowed fallback runs; on any other error the method returns false
(assume no prior interaction). -/
def hasPriorTokenInteraction (chain : List TransferEv) (wallet currentTxHash : String)
    (upToBlock currentTxIndex : ℕ) (rpc : RpcBehavior) : Bool :=
  match rpc with
  | .failed => false
  | .ok =>
    let fromEvents := queryTransferFrom chain wallet 0 upToBlock
    let toEvents := queryTransferTo chain wallet 0 upToBlock
    hasPriorInEvents (fromEvents ++ toEvents) currentTxHash upToBlock currentTxIndex
  | .rangeLimited =>
    windowedPriorScan chain wallet currentTxHash upToBlock currentTxIndex upToBlock

/-!
## HLPMM swap classification (MonitoringService.resolveHLPMMPoolToken /
handleHLPMMSwapEvent)
-/

def zeroAddress : String := "0x0000000000000000000000000000000000000000"

/-- MonitoringService.resolveHLPMMPoolToken (lines 693-710): per-pool cache in
front of the factory poolToToken call; a failed call, an empty result or the
zero address resolve to null and are not cached. The factory outcome is an
input (none for a throw or a falsy result). -/
def resolveHLPMMPoolToken (cache : List (String × String))
    (factoryPoolToToken : String → Option String) (poolAddress : String) :
    Option String × List (String × String) :=
  match cache.lookup (lowerStr poolAddress) with
  | some cached => (some cached, cache)
  | none =>
    match factoryPoolToToken poolAddress with
    | none => (none, cache)
    | some tokenAddr =>
      if tokenAddr = "" ∨ tokenAddr = zeroAddress then (none, cache)
      else (some (lowerStr tokenAddr),
        (lowerStr poolAddress, lowerStr tokenAddr) :: cache)

/-- The admission guard of MonitoringService.handleHLPMMSwapEvent (lines
712-739): the swap is a buy only when tokenIn is the configured USID address
(stored lowercased by initHLPMM), and it proceeds with the lowercased
tokenOut as traded token only when that token is monitored or the pool
resolves to a monitored token. Returns the admitted token address (none means
the event is discarded before any delivery or persistence) along with the
updated pool cache. -/
def hlpmmSwapAdmittedToken (usidEnvAddress : String) (monitoredTokens : List String)
    (cache : List (String × String)) (factoryPoolToToken : String → Option String)
    (pool tokenIn tokenOut : String) : Option String × List (String × String) :=
  let hlpmmUsidAddress := lowerStr usidEnvAddress
  if lowerStr tokenIn ≠ hlpmmUsidAddress then (none, cache)
  else
    let tokenAddress := lowerStr tokenOut
    if monitoredTokens.contains tokenAddress then (some tokenAddress, cache)
    else
      match resolveHLPMMPoolToken cache factoryPoolToToken pool with
      | (none, cache2) => (none, cache2)
      | (some resolved, cache2) =>
        if monitoredTokens.contains resolved then (some tokenAddress, cache2)
        else (none, cache2)

/-!
## Alert fan-out and persistence (tail of handleTransferEvent, lines 554-685,
and of handleHLPMMSwapEvent, lines 738-925; the two code sites are line-for-
line duplicates of each other)

The Telegram send outcomes are inputs: for each chat, whether a configured
photo/animation send succeeds, whether a plain text send succeeds, and whether
a failed text send carries the bot-was-kicked signature. The in-memory
disabledChats set is threaded through explicitly.
-/

/-- The per-chat delivery environment. -/
structure DeliveryEnv where
  mediaSendOk : ℤ → Bool
  textSendOk : ℤ → Bool
  kickedError : ℤ → Bool

/-- The effective alert media type of a watcher: the per-token override when
set, else the chat default (the JavaScript or-fallback of the source). -/
def effectiveAlertMediaType (watcher : WatcherRow) (settings : ChatSettings) : Option String :=
  match watcher.alert_media_type with
  | some t => some t
  | none => settings.alert_media_type

/-- The effective alert media file id of a watcher, same fallback rule. -/
def effectiveAlertMediaFileId (watcher : WatcherRow) (settings : ChatSettings) : Option String :=
  match watcher.alert_media_file_id with
  | some f => some f
  | none => settings.alert_media_file_id

/-- Whether the handler attempts a media send first: a file id is present and
the effective type is photo or animation. -/
def mediaSendConfigured (watcher : WatcherRow) (settings : ChatSettings) : Bool :=
  (effectiveAlertMediaFileId watcher settings).isSome &&
    (effectiveAlertMediaType watcher settings == some "photo" ||
      effectiveAlertMediaType watcher settings == some "animation")

/-- One turn of the watcher loop: settings lookup, effective media resolution
(per-token override or chat default), the minimum-buy skip, the media send
with text fallback, and the kicked-chat auto-disable inside the catch
handler. The accumulator is (db, disabledChats, deliveredCount). -/
def fanOutStep (env : DeliveryEnv) (totalUsdValue : ℚ)
    (acc : DB × List ℤ × ℕ) (watcher : WatcherRow) : DB × List ℤ × ℕ :=
  let (db, disabledChats, deliveredCount) := acc
  let settings := getChatSettings db watcher.chat_id
  if totalUsdValue < settings.min_buy_usdc then (db, disabledChats, deliveredCount)
  else if mediaSendConfigured watcher settings && env.mediaSendOk watcher.chat_id then
    (db, disabledChats, deliveredCount + 1)
  else if env.textSendOk watcher.chat_id then
    (db, disabledChats, deliveredCount + 1)
  else if env.kickedError watcher.chat_id && !(disabledChats.contains watcher.chat_id) then
    (disableChatWatchers db watcher.chat_id, watcher.chat_id :: disabledChats, deliveredCount)
  else (db, disabledChats, deliveredCount)

/-- The watcher fan-out loop (lines 569-670 and 808-910). -/
def alertFanOut (db : DB) (disabledChats : List ℤ) (watchers : List WatcherRow)
    (env : DeliveryEnv) (totalUsdValue : ℚ) : DB × List ℤ × ℕ :=
  watchers.foldl (fanOutStep env totalUsdValue) (db, disabledChats, 0)

/-- The delivery-then-persist tail shared by both handlers: dedup check before
the fan-out, the empty-watchers early return, and the commit rule that writes
the DetectedTransaction row and upserts the TraderPosition snapshot exactly
when at least one delivery succeeded. Returns the final database, the updated
disabledChats set and the delivered count. -/
def processClassifiedSwap (db : DB) (disabledChats : List ℤ)
    (tokenAddress txHash type trader tokenAmount ethAmount currentHoldingsToken : String)
    (env : DeliveryEnv) (totalUsdValue : ℚ) : DB × List ℤ × ℕ :=
  if hasDetectedTransaction db txHash then (db, disabledChats, 0)
  else
    let watchers := getTokenWatchers db tokenAddress
    if watchers.isEmpty then (db, disabledChats, 0)
    else
      let fanned := alertFanOut db disabledChats watchers env totalUsdValue
      if 0 < fanned.2.2 then
        (setTraderPosition
          (saveDetectedTransaction fanned.1 tokenAddress txHash type trader
            tokenAmount ethAmount).1 tokenAddress trader currentHoldingsToken,
         fanned.2.1, fanned.2.2)
      else fanned

/-- The AMM transfer path (handleTransferEvent, lines 554-685): the
classification type is the buy literal, the stored amounts are the raw
transfer value and the estimated native value. -/
def handleTransferEventCommit (db : DB) (disabledChats : List ℤ)
    (tokenAddress txHash trader valueString estimatedEthValue currentHoldingsToken : String)
    (env : DeliveryEnv) (totalUsdValue : ℚ) : DB × List ℤ × ℕ :=
  processClassifiedSwap db disabledChats tokenAddress txHash "buy" trader
    valueString estimatedEthValue currentHoldingsToken env totalUsdValue

/-- The HLPMM swap path (handleHLPMMSwapEvent, lines 738-925): the stored
amounts are the swap amountOut and the USID amount, and the USD value of the
swap is the USID amount itself. -/
def handleHLPMMSwapEventCommit (db : DB) (disabledChats : List ℤ)
    (tokenAddress txHash buyer amountOutString usidAmount currentHoldingsToken : String)
    (env : DeliveryEnv) (usidAmountNumeric : ℚ) : DB × List ℤ × ℕ :=
  processClassifiedSwap db disabledChats tokenAddress txHash "buy" buyer
    amountOutString usidAmount currentHoldingsToken env usidAmountNumeric

/-!
## Block polling (MonitoringService.startPolling, lines 161-218)

One tick of the 3-second interval, for the case where a tick actually runs
(the pollingInProgress single-flight guard passed). The RPC outcomes are
inputs: the getBlockNumber call, one Transfer queryFilter outcome per
monitored token (in iteration order), and the HLPMM Swap queryFilter outcome.
Event handlers never throw (each wraps its own body in try/catch), so only
the query calls can abort a tick. A token query error propagates to the
outer catch and leaves lastBlockNumber unchanged; an HLPMM query error is
caught by the inner try/catch, logged, and the tick still advances
lastBlockNumber.
-/

/-- The observable result of one polling tick. -/
structure PollTickResult where
  lastBlockNumber : ℕ
  handledTransferEvents : ℕ
  handledSwapEvents : ℕ
deriving DecidableEq, Repr

/-- One tick of the polling loop. none models a thrown RPC call. -/
def pollTick (lastBlockNumber : ℕ) (getBlockNumber : Option ℕ)
    (tokenQueries : List (Option (List TransferEv))) (hlpmmEnabled : Bool)
    (hlpmmQuery : Option (List TransferEv)) : PollTickResult :=
  match getBlockNumber with
  | none => ⟨lastBlockNumber, 0, 0⟩
  | some currentBlock =>
    if lastBlockNumber < currentBlock then
      let processed := tokenQueries.takeWhile Option.isSome
      let handledTransfers := (processed.map (fun q => (q.getD []).length)).sum
      if processed.length = tokenQueries.length then
        let handledSwaps :=
          if hlpmmEnabled then
            match hlpmmQuery with
            | some events => events.length
            | none => 0
          else 0
        ⟨currentBlock, handledTransfers, handledSwaps⟩
      else ⟨lastBlockNumber, handledTransfers, 0⟩
    else ⟨lastBlockNumber, 0, 0⟩

/-!
## Price resolution (src/blockchain/PriceService.ts)

The source carries prices as decimal strings and uses the literal string 0 as
the this-path-failed sentinel; the embedding carries the numeric value and
models the sentinel as Option none. A successful getAmountsOut quote is
formatted by formatEther/formatUnits, which always prints a decimal point, so
a successful quote never collides with the sentinel; likewise toFixed(8)
output never equals the bare sentinel string. Decimal formatting
(normalizeUsdPrice, toFixed) is modelled as the identity on the value with
the non-positive clamp to the sentinel kept where the source has it.
-/

/-- The {priceInEth, priceInUsd} pair (PriceService.TokenPrice). -/
structure TokenPrice where
  priceInEth : ℚ
  priceInUsd : ℚ
deriving DecidableEq, Repr

/-- PriceService.normalizeUsdPrice (lines 428-439): non-positive and
non-finite values collapse to the 0 sentinel; positive values keep their
value (their decimal rendering is not modelled). -/
def normalizeUsdPrice (value : ℚ) : ℚ :=
  if value ≤ 0 then 0 else value

/-- PriceService.getTokenPriceFromPortfolioApi (lines 470-508). usd and eth
are the probed API fields after parseNumericField, which only yields positive
finite numbers (none otherwise); paxUsdPrice is the native/USD reference
rate from getPaxUsdPrice. -/
def getTokenPriceFromPortfolioApi (usd eth : Option ℚ) (paxUsdPrice : ℚ) :
    Option TokenPrice :=
  if usd.isNone ∧ eth.isNone then none
  else
    let resolvedUsd :=
      match usd with
      | some u => u
      | none => (eth.getD 0) * paxUsdPrice
    let resolvedEth :=
      match eth with
      | some e => e
      | none => if 0 < resolvedUsd ∧ 0 < paxUsdPrice then resolvedUsd / paxUsdPrice else 0
    if ¬(0 < resolvedUsd) ∧ ¬(0 < resolvedEth) then none
    else some ⟨resolvedEth, normalizeUsdPrice resolvedUsd⟩

/-- PriceService.getHLPMMTokenPrice (lines 913-957). configured is the
presence of the quoter, factory and USID addresses; tokenToPool is the
factory lookup outcome (none for a throw; the null and zero-address results
are checked explicitly); getSpotPrice the quoter call outcome. When the
reference rate is non-positive the source leaves the eth side at the string
sentinel, so the pair is dropped only when the usd side is the sentinel too. -/
def getHLPMMTokenPrice (configured : Bool) (tokenToPool : Option String)
    (getSpotPrice : Option ℚ) (paxUsdPrice : ℚ) : Option TokenPrice :=
  if !configured then none
  else
    match tokenToPool with
    | none => none
    | some poolAddress =>
      if poolAddress = "" ∨ poolAddress = zeroAddress then none
      else
        match getSpotPrice with
        | none => none
        | some spotPrice =>
          let priceInUsd := normalizeUsdPrice spotPrice
          if 0 < paxUsdPrice then some ⟨priceInUsd / paxUsdPrice, priceInUsd⟩
          else if priceInUsd = 0 then none
          else some ⟨0, priceInUsd⟩

/-- PriceService.getTokenPrice (lines 510-578): portfolio API first, then the
router quotes of one token unit against the wrapped-native asset and the
reference stablecoin (wethQuote/usdcQuote, none when that path threw),
deriving the missing side from the reference rate, and the HLPMM quoter as
last resort — both when the router setup itself throws (routerSetupOk false,
e.g. a failing decimals call) and when both quote paths failed. -/
def getTokenPrice (apiUsd apiEth : Option ℚ) (paxUsdPrice : ℚ) (routerSetupOk : Bool)
    (wethQuote usdcQuote : Option ℚ) (hlpmmPrice : Option TokenPrice) :
    Option TokenPrice :=
  match getTokenPriceFromPortfolioApi apiUsd apiEth paxUsdPrice with
  | some apiPrice => some apiPrice
  | none =>
    if !routerSetupOk then hlpmmPrice
    else
      let priceInEth : Option ℚ := wethQuote
      let priceInUsd : Option ℚ := usdcQuote
      let priceInUsd2 : Option ℚ :=
        match priceInUsd, priceInEth with
        | none, some e =>
          let derived := normalizeUsdPrice (e * paxUsdPrice)
          if derived = 0 then none else some derived
        | pu, _ => pu
      let priceInEth2 : Option ℚ :=
        match priceInEth, priceInUsd2 with
        | none, some u => some (u / paxUsdPrice)
        | pe, _ => pe
      match priceInEth2, priceInUsd2 with
      | none, none => hlpmmPrice
      | pe, pu => some ⟨pe.getD 0, normalizeUsdPrice (pu.getD 0)⟩

/-!
## Claim C3
-/

/-- Claim C3: classifyTransfer(from, to, tx) returns a buy with trader = to
exactly when, case-insensitively, the transfer sender is the configured
router, or the transaction destination is the router and the transfer
recipient is the transaction sender; every other transfer yields null. The
buy result always carries trader = to. Stated for a nonempty configured
router address (tx.to may be null and is compared as the empty string). -/
theorem claim_C3_classifyTransfer (routerAddress fromA toA : String)
    (tx : TransactionResponse) (hrouter : routerAddress ≠ "") :
    (classifyTransfer routerAddress fromA toA tx = some ⟨"buy", toA⟩ ↔
      (lowerStr fromA = lowerStr routerAddress ∨
        (∃ txTo, tx.txTo = some txTo ∧ lowerStr txTo = lowerStr routerAddress ∧
          lowerStr toA = lowerStr tx.txFrom))) ∧
    (∀ c, classifyTransfer routerAddress fromA toA tx = some c → c = ⟨"buy", toA⟩) := by
  have hrouterLower : lowerStr routerAddress ≠ "" :=
    fun h => hrouter ((lowerStr_eq_empty_iff routerAddress).mp h)
  have htxto : ((tx.txTo.map lowerStr).getD "" = lowerStr routerAddress) ↔
      (∃ txTo, tx.txTo = some txTo ∧ lowerStr txTo = lowerStr routerAddress) := by
    cases htt : tx.txTo with
    | none =>
      simp only [Option.map_none', Option.getD_none]
      constructor
      · intro h; exact absurd h.symm hrouterLower
      · rintro ⟨t, ht, _⟩; cases ht
    | some t =>
      simp only [Option.map_some', Option.getD_some]
      constructor
      · intro h; exact ⟨t, rfl, h⟩
      · rintro ⟨t2, ht2, h⟩; cases ht2; exact h
  constructor
  · unfold classifyTransfer
    by_cases h1 : lowerStr fromA = lowerStr routerAddress
    · simp [h1]
    · rw [if_neg h1]
      by_cases h2 : (tx.txTo.map lowerStr).getD "" = lowerStr routerAddress
      · rw [if_pos h2]
        by_cases h3 : lowerStr toA = lowerStr tx.txFrom
        · simp only [if_pos h3]
          constructor
          · intro _; exact Or.inr (by
              obtain ⟨t, ht, hl⟩ := htxto.mp h2
              exact ⟨t, ht, hl, h3⟩)
          · intro _; trivial
        · simp only [if_neg h3]
          constructor
          · intro h; cases h
          · rintro (h | ⟨t, ht, hl, hto⟩)
            · exact absurd h h1
            · exact absurd hto h3
      · rw [if_neg h2]
        constructor
        · intro h; cases h
        · rintro (h | ⟨t, ht, hl, hto⟩)
          · exact absurd h h1
          · exact absurd (htxto.mpr ⟨t, ht, hl⟩) h2
  · intro c hc
    unfold classifyTransfer at hc
    by_cases h1 : lowerStr fromA = lowerStr routerAddress
    · simp only [if_pos h1, Option.some.injEq] at hc
      exact hc.symm
    · rw [if_neg h1] at hc
      by_cases h2 : (tx.txTo.map lowerStr).getD "" = lowerStr routerAddress
      · rw [if_pos h2] at hc
        by_cases h3 : lowerStr toA = lowerStr tx.txFrom
        · simp only [if_pos h3, Option.some.injEq] at hc
          exact hc.symm
        · rw [if_neg h3] at hc; cases hc
      · rw [if_neg h2] at hc; cases hc

/-- Witness for claim C3: a transfer whose sender is the router classifies as
a buy with the recipient as trader, and one with unrelated sender on a
transaction not touching the router classifies as null. -/
theorem claim_C3_witness :
    (classifyTransfer "0xRouter" "0xROUTER" "0xAlice" ⟨"0xAlice", none⟩ =
      some ⟨"buy", "0xAlice"⟩) ∧
    (classifyTransfer "0xRouter" "0xBob" "0xAlice" ⟨"0xAlice", some "0xCarol"⟩ = none) := by
  constructor
  · exact (claim_C3_classifyTransfer "0xRouter" "0xROUTER" "0xAlice" ⟨"0xAlice", none⟩
      (by decide)).1.mpr (Or.inl (by decide))
  · have h := (claim_C3_classifyTransfer "0xRouter" "0xBob" "0xAlice"
      ⟨"0xAlice", some "0xCarol"⟩ (by decide)).1
    cases hc : classifyTransfer "0xRouter" "0xBob" "0xAlice" ⟨"0xAlice", some "0xCarol"⟩ with
    | none => rfl
    | some c =>
      have hc2 := (claim_C3_classifyTransfer "0xRouter" "0xBob" "0xAlice"
        ⟨"0xAlice", some "0xCarol"⟩ (by decide)).2 c hc
      subst hc2
      have := h.mp hc
      rcases this with h' | ⟨t, ht, hl, hto⟩
      · exact absurd h' (by decide)
      · cases ht
        exact absurd hl (by decide)

/-!
## Claim C4
-/

/-- Modelled from the claim wording (refinement comparison): the label for
the no-usable-snapshot case is NEW when no prior interaction exists or when
the inferred baseline max(0, current - delta) is zero, and otherwise the
percent change against that baseline. -/
def claimedNoSnapshotLabel (hasPrior : Bool) (current delta : ℚ) : String :=
  if hasPrior = false ∨ max 0 (current - delta) = 0 then "NEW"
  else formatPositionPercent current (max 0 (current - delta))

/-- Modelled from the claim wording (refinement comparison): with a persisted
snapshot whose holdings are positive, the label is the percent change against
the snapshot when current holdings reach it, otherwise against the inferred
baseline max(0, current - delta) when positive, else NEW; without a usable
snapshot the no-snapshot rule applies. -/
def claimedPositionLabel (snapshot : Option ℚ) (hasPrior : Bool)
    (current delta : ℚ) : String :=
  match snapshot with
  | some snapHoldings =>
    if 0 < snapHoldings then
      if snapHoldings ≤ current then formatPositionPercent current snapHoldings
      else if 0 < max 0 (current - delta) then
        formatPositionPercent current (max 0 (current - delta))
      else "NEW"
    else claimedNoSnapshotLabel hasPrior current delta
  | none => claimedNoSnapshotLabel hasPrior current delta

/-- Claim C4: computePositionLabel behaves exactly as the claim describes on
every input (the percent change against the snapshot when holdings grew, the
inferred baseline max(0, current - delta) on a shrink or without a snapshot,
NEW when no prior interaction or a zero baseline); the percent is the signed
two-decimal value of ((current - previous) / previous) * 100, so snapshot 100
with current 150 yields +50.00 percent, snapshot 100 with current 40 and
delta 10 yields +33.33 percent, and a non-positive baseline yields N/A. -/
theorem claim_C4_computePositionLabel :
    (∀ (snapshot : Option ℚ) (hasPrior : Bool) (current delta : ℚ),
      computePositionLabel snapshot hasPrior current delta =
        claimedPositionLabel snapshot hasPrior current delta) ∧
    (∀ (hasPrior : Bool) (delta : ℚ),
      computePositionLabel (some 100) hasPrior 150 delta = "+50.00%") ∧
    (∀ hasPrior : Bool,
      computePositionLabel (some 100) hasPrior 40 10 = "+33.33%") ∧
    (∀ current previous : ℚ, previous ≤ 0 →
      formatPositionPercent current previous = "N/A") := by
  have hmax : ∀ current delta : ℚ, (0:ℚ) ≤ max 0 (current - delta) :=
    fun current delta => le_max_left 0 (current - delta)
  have hNA : ∀ current previous : ℚ, previous ≤ 0 →
      formatPositionPercent current previous = "N/A" := by
    intro current previous h
    unfold formatPositionPercent
    rw [if_pos h]
  have hfmt50 : formatPositionPercent 150 100 = "+50.00%" := by
    unfold formatPositionPercent
    rw [if_neg (by norm_num)]
    have hpct : ((150:ℚ) - 100) / 100 * 100 = 50 := by norm_num
    rw [hpct, if_pos (by norm_num : (0:ℚ) ≤ 50)]
    have hscaled : round ((50:ℚ) * 100) = 5000 := by rw [round_eq]; norm_num
    unfold ratToFixed2
    rw [hscaled, if_neg (by norm_num)]
    rfl
  have hfmt33 : formatPositionPercent 40 30 = "+33.33%" := by
    unfold formatPositionPercent
    rw [if_neg (by norm_num)]
    have hpct : ((40:ℚ) - 30) / 30 * 100 = 100/3 := by norm_num
    rw [hpct, if_pos (by norm_num : (0:ℚ) ≤ 100/3)]
    have hscaled : round ((100:ℚ)/3 * 100) = 3333 := by
      rw [round_eq]
      norm_num
    unfold ratToFixed2
    rw [hscaled, if_neg (by norm_num)]
    rfl
  refine ⟨?_, ?_, ?_, hNA⟩
  · intro snapshot hasPrior current delta
    cases snapshot with
    | none =>
      simp only [computePositionLabel, claimedPositionLabel, claimedNoSnapshotLabel,
        Option.isSome_none, Option.getD_none]
      rw [if_neg (by simp)]
      cases hasPrior with
      | false => simp
      | true =>
        simp only [Bool.not_true, Bool.false_eq_true, if_false]
        by_cases hz : max 0 (current - delta) ≤ 0
        · have hz0 : max 0 (current - delta) = 0 := le_antisymm hz (hmax current delta)
          rw [if_pos hz, if_pos (Or.inr hz0)]
        · rw [if_neg hz, if_neg (by
            rintro (h | h)
            · cases h
            · exact hz (le_of_eq h))]
    | some snapHoldings =>
      by_cases hpos : (0:ℚ) < snapHoldings
      · simp only [computePositionLabel, claimedPositionLabel, Option.isSome_some,
          Option.getD_some]
        rw [if_pos ⟨trivial, hpos⟩, if_pos hpos]
      · simp only [computePositionLabel, claimedPositionLabel, claimedNoSnapshotLabel,
          Option.isSome_some, Option.getD_some]
        rw [if_neg (fun h => hpos h.2), if_neg hpos]
        cases hasPrior with
        | false => simp
        | true =>
          simp only [Bool.not_true, Bool.false_eq_true, if_false]
          by_cases hz : max 0 (current - delta) ≤ 0
          · have hz0 : max 0 (current - delta) = 0 := le_antisymm hz (hmax current delta)
            rw [if_pos hz, if_pos (Or.inr hz0)]
          · rw [if_neg hz, if_neg (by
              rintro (h | h)
              · cases h
              · exact hz (le_of_eq h))]
  · intro hasPrior delta
    simp only [computePositionLabel, Option.isSome_some, Option.getD_some]
    rw [if_pos ⟨trivial, by norm_num⟩, if_pos (by norm_num : (100:ℚ) ≤ 150)]
    exact hfmt50
  · intro hasPrior
    simp only [computePositionLabel, Option.isSome_some, Option.getD_some]
    rw [if_pos ⟨trivial, by norm_num⟩, if_neg (by norm_num : ¬((100:ℚ) ≤ 40))]
    rw [if_pos (by norm_num : (0:ℚ) < max 0 (40 - 10))]
    rw [show max (0:ℚ) (40 - 10) = 30 by norm_num]
    exact hfmt33

/-- Witness for claim C4: the growth, partial-sell and N/A cases at concrete
inputs. -/
theorem claim_C4_witness :
    computePositionLabel (some 100) true 150 0 = "+50.00%" ∧
    computePositionLabel (some 100) false 40 10 = "+33.33%" ∧
    formatPositionPercent 5 0 = "N/A" := by
  refine ⟨claim_C4_computePositionLabel.2.1 true 0,
    claim_C4_computePositionLabel.2.2.1 false,
    claim_C4_computePositionLabel.2.2.2 5 0 (by norm_num)⟩

/-!
## Claim C10
-/

theorem getTraderPosition_key_congr (db : DB) (t tr t2 tr2 : String)
    (ht : lowerStr t2 = lowerStr t) (htr : lowerStr tr2 = lowerStr tr) :
    getTraderPosition db t2 tr2 = getTraderPosition db t tr := by
  unfold getTraderPosition
  rw [ht, htr]

theorem posFilterMapHead (t tr h : String) (l : List TraderPositionRow)
    (hany : (l.any fun r =>
      r.token_address == lowerStr t && r.trader_address == lowerStr tr) = true) :
    ((l.map (fun r =>
        if r.token_address == lowerStr t && r.trader_address == lowerStr tr then
          { r with holdings_token := h }
        else r)).filter
      (fun r => r.token_address == lowerStr t && r.trader_address == lowerStr tr)).head? =
      some ⟨lowerStr t, lowerStr tr, h⟩ := by
  induction l with
  | nil => cases hany
  | cons p rest ih =>
    by_cases hp : (p.token_address == lowerStr t && p.trader_address == lowerStr tr) = true
    · have hfields : p.token_address = lowerStr t ∧ p.trader_address = lowerStr tr := by
        have hcopy := hp
        simp only [Bool.and_eq_true, beq_iff_eq] at hcopy
        exact hcopy
      simp only [List.map_cons, if_pos hp, List.filter_cons]
      simp only [List.head?_cons, Option.some.injEq]
      cases p
      simp_all
    · have hrest : (rest.any fun r =>
          r.token_address == lowerStr t && r.trader_address == lowerStr tr) = true := by
        simp only [List.any_cons, hp, Bool.false_or] at hany
        exact hany
      simp only [List.map_cons, if_neg hp, List.filter_cons]
      exact ih hrest

theorem getPos_setPos_same (db : DB) (t tr h : String) :
    getTraderPosition (setTraderPosition db t tr h) t tr =
      some ⟨lowerStr t, lowerStr tr, h⟩ := by
  unfold getTraderPosition setTraderPosition
  by_cases hany : (db.trader_positions.any
      fun r => r.token_address == lowerStr t && r.trader_address == lowerStr tr) = true
  · rw [if_pos hany]
    exact posFilterMapHead t tr h db.trader_positions hany
  · rw [if_neg hany]
    have hfilter : db.trader_positions.filter
        (fun r => r.token_address == lowerStr t && r.trader_address == lowerStr tr) = [] := by
      rw [List.filter_eq_nil_iff]
      intro r hr hcontra
      exact hany (List.any_eq_true.mpr ⟨r, hr, hcontra⟩)
    rw [List.filter_append, hfilter]
    simp [List.filter]

/-- Claim C10: the cited persistence operations lowercase their address
arguments before storing or querying, so each operation is insensitive to the
casing of the address it receives, detected-transaction rows store the token
address lowercased, and a trader position written under one casing is read
back under any casing with the same lowercase form. -/
theorem claim_C10_lowercase_persistence :
    (∀ (db : DB) (chatId : ℤ) (addr symbol name : String),
      addWatchedToken db chatId addr symbol name =
        addWatchedToken db chatId (lowerStr addr) symbol name) ∧
    (∀ (db : DB) (addr : String),
      getTokenWatchers db addr = getTokenWatchers db (lowerStr addr)) ∧
    (∀ (db : DB) (token trader : String),
      getTraderPosition db token trader =
        getTraderPosition db (lowerStr token) (lowerStr trader)) ∧
    (∀ (db : DB) (token trader holdings : String),
      setTraderPosition db token trader holdings =
        setTraderPosition db (lowerStr token) (lowerStr trader) holdings) ∧
    (∀ (db : DB) (token tx ty trader ta ea : String),
      saveDetectedTransaction db token tx ty trader ta ea =
        saveDetectedTransaction db (lowerStr token) tx ty trader ta ea) ∧
    (∀ (db : DB) (token trader holdings token2 trader2 : String),
      lowerStr token2 = lowerStr token → lowerStr trader2 = lowerStr trader →
      getTraderPosition (setTraderPosition db token trader holdings) token2 trader2 =
        some ⟨lowerStr token, lowerStr trader, holdings⟩) := by
  refine ⟨?_, ?_, ?_, ?_, ?_, ?_⟩
  · intro db chatId addr symbol name
    unfold addWatchedToken
    rw [lowerStr_idem]
  · intro db addr
    unfold getTokenWatchers
    rw [lowerStr_idem]
  · intro db token trader
    unfold getTraderPosition
    rw [lowerStr_idem, lowerStr_idem]
  · intro db token trader holdings
    unfold setTraderPosition
    rw [lowerStr_idem, lowerStr_idem]
  · intro db token tx ty trader ta ea
    unfold saveDetectedTransaction
    rw [lowerStr_idem]
  · intro db token trader holdings token2 trader2 ht htr
    rw [getTraderPosition_key_congr _ token trader token2 trader2 ht htr]
    exact getPos_setPos_same db token trader holdings

/-- Witness for claim C10: a position written under a mixed-case token and
trader address is found when read under different casings. -/
theorem claim_C10_witness :
    getTraderPosition
        (setTraderPosition ⟨[], [], [], []⟩ "0xAbC" "0xTrAdEr" "42") "0xABC" "0xtrader" =
      some ⟨"0xabc", "0xtrader", "42"⟩ := by
  have h := claim_C10_lowercase_persistence.2.2.2.2.2
    ⟨[], [], [], []⟩ "0xAbC" "0xTrAdEr" "42" "0xABC" "0xtrader"
    (by decide) (by decide)
  rw [h]
  decide

/-!
## Claim C9
-/

/-- Whether some send attempt of the fan-out turn succeeds for a chat: the
configured media send, or the plain text message (also the fallback after a
failed media send). -/
def chatDeliverySucceeds (settings : ChatSettings) (watcher : WatcherRow)
    (env : DeliveryEnv) : Bool :=
  (mediaSendConfigured watcher settings && env.mediaSendOk watcher.chat_id) ||
    env.textSendOk watcher.chat_id

/-- Whether a watcher chat receives the alert: the swap USD value is not
strictly below the chat minimum, and a send succeeds. -/
def watcherGetsAlert (db : DB) (env : DeliveryEnv) (totalUsdValue : ℚ)
    (watcher : WatcherRow) : Bool :=
  !(decide (totalUsdValue < (getChatSettings db watcher.chat_id).min_buy_usdc)) &&
    chatDeliverySucceeds (getChatSettings db watcher.chat_id) watcher env

theorem getChatSettings_ext (db1 db2 : DB) (chatId : ℤ)
    (h : db1.chat_settings = db2.chat_settings) :
    getChatSettings db1 chatId = getChatSettings db2 chatId := by
  unfold getChatSettings
  rw [h]

theorem fanOutStep_preserves (env : DeliveryEnv) (usd : ℚ)
    (acc : DB × List ℤ × ℕ) (w : WatcherRow) :
    (fanOutStep env usd acc w).1.detected_transactions = acc.1.detected_transactions ∧
    (fanOutStep env usd acc w).1.trader_positions = acc.1.trader_positions ∧
    (fanOutStep env usd acc w).1.chat_settings = acc.1.chat_settings := by
  rcases acc with ⟨db, dis, cnt⟩
  simp only [fanOutStep]
  split_ifs <;> simp [disableChatWatchers]

theorem fanOut_foldl_preserves (env : DeliveryEnv) (usd : ℚ) :
    ∀ (ws : List WatcherRow) (acc : DB × List ℤ × ℕ),
    (ws.foldl (fanOutStep env usd) acc).1.detected_transactions =
      acc.1.detected_transactions ∧
    (ws.foldl (fanOutStep env usd) acc).1.trader_positions = acc.1.trader_positions ∧
    (ws.foldl (fanOutStep env usd) acc).1.chat_settings = acc.1.chat_settings := by
  intro ws
  induction ws with
  | nil => intro acc; exact ⟨rfl, rfl, rfl⟩
  | cons w rest ih =>
    intro acc
    have hstep := fanOutStep_preserves env usd acc w
    have hrest := ih (fanOutStep env usd acc w)
    simp only [List.foldl_cons]
    exact ⟨hrest.1.trans hstep.1, hrest.2.1.trans hstep.2.1, hrest.2.2.trans hstep.2.2⟩

theorem fanOutStep_count (env : DeliveryEnv) (usd : ℚ)
    (acc : DB × List ℤ × ℕ) (w : WatcherRow) :
    (fanOutStep env usd acc w).2.2 =
      acc.2.2 + (if watcherGetsAlert acc.1 env usd w then 1 else 0) := by
  rcases acc with ⟨db, dis, cnt⟩
  simp only [fanOutStep]
  by_cases hmin : usd < (getChatSettings db w.chat_id).min_buy_usdc
  · rw [if_pos hmin]
    simp [watcherGetsAlert, hmin]
  · rw [if_neg hmin]
    by_cases hmedia : (mediaSendConfigured w (getChatSettings db w.chat_id) &&
        env.mediaSendOk w.chat_id) = true
    · rw [if_pos hmedia]
      unfold watcherGetsAlert chatDeliverySucceeds
      simp_all
    · rw [if_neg hmedia]
      by_cases htext : env.textSendOk w.chat_id = true
      · rw [if_pos htext]
        unfold watcherGetsAlert chatDeliverySucceeds
        simp_all
      · rw [if_neg htext]
        have hpred : watcherGetsAlert db env usd w = false := by
          unfold watcherGetsAlert chatDeliverySucceeds
          simp_all
        rw [hpred]
        by_cases hk : (env.kickedError w.chat_id && !(dis.contains w.chat_id)) = true
        · rw [if_pos hk]
          simp
        · rw [if_neg hk]
          simp

theorem fanOut_foldl_count (env : DeliveryEnv) (usd : ℚ) :
    ∀ (ws : List WatcherRow) (acc : DB × List ℤ × ℕ),
    (ws.foldl (fanOutStep env usd) acc).2.2 =
      acc.2.2 + ws.countP (watcherGetsAlert acc.1 env usd) := by
  intro ws
  induction ws with
  | nil => intro acc; simp
  | cons w rest ih =>
    intro acc
    simp only [List.foldl_cons]
    have hrest := ih (fanOutStep env usd acc w)
    have hsettings : (fanOutStep env usd acc w).1.chat_settings = acc.1.chat_settings :=
      (fanOutStep_preserves env usd acc w).2.2
    have hpred : ∀ v ∈ rest, watcherGetsAlert (fanOutStep env usd acc w).1 env usd v =
        watcherGetsAlert acc.1 env usd v := by
      intro v _
      unfold watcherGetsAlert
      rw [getChatSettings_ext _ acc.1 v.chat_id hsettings]
    have hpred2 : ∀ v ∈ rest, watcherGetsAlert (fanOutStep env usd acc w).1 env usd v = true ↔
        watcherGetsAlert acc.1 env usd v = true := fun v hv => by rw [hpred v hv]
    rw [hrest, List.countP_congr hpred2, fanOutStep_count env usd acc w, List.countP_cons]
    split_ifs <;> omega

/-- Claim C9: in the watcher fan-out, a chat is skipped exactly when the swap
USD value is strictly below that chat's min_buy_usdc; a value equal to the
threshold is delivered. The delivered count is the number of watchers whose
value passes the threshold and whose send succeeds, and with a threshold of
500 a swap of 499.99 produces no alert while one of exactly 500 does. -/
theorem claim_C9_minimum_buy_filter :
    (∀ (db : DB) (disabled : List ℤ) (watchers : List WatcherRow)
        (env : DeliveryEnv) (usd : ℚ),
      (alertFanOut db disabled watchers env usd).2.2 =
        watchers.countP (watcherGetsAlert db env usd)) ∧
    (∀ (db : DB) (env : DeliveryEnv) (usd : ℚ) (w : WatcherRow),
      chatDeliverySucceeds (getChatSettings db w.chat_id) w env = true →
      (watcherGetsAlert db env usd w = true ↔
        (getChatSettings db w.chat_id).min_buy_usdc ≤ usd)) ∧
    ((alertFanOut ⟨[], [], [], [⟨1, 500, 1, "p", none, none⟩]⟩ []
        [⟨1, none, none⟩] ⟨fun _ => false, fun _ => true, fun _ => false⟩
        (49999/100)).2.2 = 0) ∧
    ((alertFanOut ⟨[], [], [], [⟨1, 500, 1, "p", none, none⟩]⟩ []
        [⟨1, none, none⟩] ⟨fun _ => false, fun _ => true, fun _ => false⟩
        500).2.2 = 1) := by
  have hcount : ∀ (db : DB) (disabled : List ℤ) (watchers : List WatcherRow)
      (env : DeliveryEnv) (usd : ℚ),
      (alertFanOut db disabled watchers env usd).2.2 =
        watchers.countP (watcherGetsAlert db env usd) := by
    intro db disabled watchers env usd
    unfold alertFanOut
    rw [fanOut_foldl_count env usd watchers (db, disabled, 0)]
    simp
  have hsettings : getChatSettings
      (⟨[], [], [], [⟨1, 500, 1, "p", none, none⟩]⟩ : DB) (1 : ℤ) =
      ⟨500, 1, "p", none, none⟩ := by
    unfold getChatSettings
    simp
  refine ⟨hcount, ?_, ?_, ?_⟩
  · intro db env usd w hsend
    unfold watcherGetsAlert
    rw [hsend]
    simp [not_lt]
  · rw [hcount]
    simp only [List.countP, List.countP.go, watcherGetsAlert, hsettings]
    norm_num [chatDeliverySucceeds, mediaSendConfigured, effectiveAlertMediaType,
      effectiveAlertMediaFileId]
  · rw [hcount]
    simp only [List.countP, List.countP.go, watcherGetsAlert, hsettings]
    norm_num [chatDeliverySucceeds, mediaSendConfigured, effectiveAlertMediaType,
      effectiveAlertMediaFileId]

/-- Witness for claim C9: at the concrete threshold 500, a chat with a
succeeding text send receives the alert exactly when the swap value reaches
the threshold. -/
theorem claim_C9_witness :
    watcherGetsAlert ⟨[], [], [], [⟨1, 500, 1, "p", none, none⟩]⟩
      ⟨fun _ => false, fun _ => true, fun _ => false⟩ 500 ⟨1, none, none⟩ = true := by
  have h := claim_C9_minimum_buy_filter.2.1
    ⟨[], [], [], [⟨1, 500, 1, "p", none, none⟩]⟩
    ⟨fun _ => false, fun _ => true, fun _ => false⟩ 500 ⟨1, none, none⟩
    (by simp [chatDeliverySucceeds])
  rw [h]
  have hsettings : getChatSettings
      (⟨[], [], [], [⟨1, 500, 1, "p", none, none⟩]⟩ : DB) (1 : ℤ) =
      ⟨500, 1, "p", none, none⟩ := by
    unfold getChatSettings
    simp
  rw [hsettings]

/-!
## Claims C1 and C2
-/

theorem saveDetectedTransaction_inserted (db : DB)
    (token tx ty tr ta ea : String) :
    (saveDetectedTransaction db token tx ty tr ta ea).2 =
      !(hasDetectedTransaction db tx) := by
  unfold saveDetectedTransaction hasDetectedTransaction
  split_ifs with h <;> simp [h]

theorem hasDetected_after_save (db : DB) (token tx ty tr ta ea : String) :
    hasDetectedTransaction (saveDetectedTransaction db token tx ty tr ta ea).1 tx = true := by
  unfold saveDetectedTransaction hasDetectedTransaction
  split_ifs with h
  · exact h
  · simp

theorem save_preserves_positions (db : DB) (token tx ty tr ta ea : String) :
    (saveDetectedTransaction db token tx ty tr ta ea).1.trader_positions =
      db.trader_positions := by
  unfold saveDetectedTransaction
  split_ifs <;> rfl

theorem setPos_preserves_detected (db : DB) (t tr h : String) :
    (setTraderPosition db t tr h).detected_transactions = db.detected_transactions := by
  unfold setTraderPosition
  split_ifs <;> rfl

theorem save_preserves_hash_nodup (db : DB) (token tx ty tr ta ea : String)
    (hnd : (db.detected_transactions.map DetectedTransactionRow.tx_hash).Nodup) :
    ((saveDetectedTransaction db token tx ty tr ta ea).1.detected_transactions.map
      DetectedTransactionRow.tx_hash).Nodup := by
  unfold saveDetectedTransaction
  split_ifs with h
  · exact hnd
  · simp only [List.map_append, List.map_cons, List.map_nil]
    rw [List.nodup_append]
    refine ⟨hnd, List.nodup_singleton tx, ?_⟩
    intro a ha hb
    have hax : a = tx := by
      simp only [List.mem_singleton] at hb
      exact hb
    subst hax
    obtain ⟨r, hr, hrx⟩ := List.mem_map.mp ha
    exact absurd (List.any_eq_true.mpr ⟨r, hr, by simp [hrx]⟩) h

theorem processClassifiedSwap_alreadyDetected (db : DB) (disabled : List ℤ)
    (token tx ty trader ta ea hold : String) (env : DeliveryEnv) (usd : ℚ)
    (h : hasDetectedTransaction db tx = true) :
    processClassifiedSwap db disabled token tx ty trader ta ea hold env usd =
      (db, disabled, 0) := by
  unfold processClassifiedSwap
  rw [if_pos h]

theorem processClassifiedSwap_commit (db : DB) (disabled : List ℤ)
    (token tx ty trader ta ea hold : String) (env : DeliveryEnv) (usd : ℚ) :
    (0 < (processClassifiedSwap db disabled token tx ty trader ta ea hold env usd).2.2 →
      hasDetectedTransaction
        (processClassifiedSwap db disabled token tx ty trader ta ea hold env usd).1 tx = true ∧
      getTraderPosition
          (processClassifiedSwap db disabled token tx ty trader ta ea hold env usd).1
          token trader = some ⟨lowerStr token, lowerStr trader, hold⟩) ∧
    ((processClassifiedSwap db disabled token tx ty trader ta ea hold env usd).2.2 = 0 →
      (processClassifiedSwap db disabled token tx ty trader ta ea hold env usd).1.detected_transactions =
        db.detected_transactions ∧
      (processClassifiedSwap db disabled token tx ty trader ta ea hold env usd).1.trader_positions =
        db.trader_positions) ∧
    (hasDetectedTransaction db tx = false →
      (processClassifiedSwap db disabled token tx ty trader ta ea hold env usd).2.2 =
        (getTokenWatchers db token).countP (watcherGetsAlert db env usd)) := by
  by_cases hdet : hasDetectedTransaction db tx = true
  · rw [processClassifiedSwap_alreadyDetected db disabled token tx ty trader ta ea hold env usd hdet]
    refine ⟨fun h0 => absurd h0 (by simp), fun _ => ⟨rfl, rfl⟩, fun hfalse => ?_⟩
    rw [hdet] at hfalse
    cases hfalse
  · have hdet2 : hasDetectedTransaction db tx = false := by
      cases h : hasDetectedTransaction db tx
      · rfl
      · exact absurd h hdet
    unfold processClassifiedSwap
    rw [if_neg (by rw [hdet2]; exact Bool.false_ne_true)]
    by_cases hempty : (getTokenWatchers db token).isEmpty = true
    · rw [if_pos hempty]
      refine ⟨fun h0 => absurd h0 (by simp), fun _ => ⟨rfl, rfl⟩, fun _ => ?_⟩
      have : getTokenWatchers db token = [] := List.isEmpty_iff.mp hempty
      rw [this]
      rfl
    · rw [if_neg hempty]
      have hcount : (alertFanOut db disabled (getTokenWatchers db token) env usd).2.2 =
          (getTokenWatchers db token).countP (watcherGetsAlert db env usd) := by
        unfold alertFanOut
        rw [fanOut_foldl_count env usd (getTokenWatchers db token) (db, disabled, 0)]
        simp
      have hpres := fanOut_foldl_preserves env usd (getTokenWatchers db token)
        (db, disabled, 0)
      by_cases hdel : 0 < (alertFanOut db disabled (getTokenWatchers db token) env usd).2.2
      · rw [if_pos hdel]
        refine ⟨fun _ => ⟨?_, ?_⟩, fun h0 => absurd hdel (by
          have hz : (alertFanOut db disabled (getTokenWatchers db token) env usd).2.2 = 0 := h0
          omega), fun _ => hcount⟩
        · calc hasDetectedTransaction (setTraderPosition
                (saveDetectedTransaction
                  (alertFanOut db disabled (getTokenWatchers db token) env usd).1
                  token tx ty trader ta ea).1 token trader hold) tx
              = hasDetectedTransaction
                (saveDetectedTransaction
                  (alertFanOut db disabled (getTokenWatchers db token) env usd).1
                  token tx ty trader ta ea).1 tx := by
                unfold hasDetectedTransaction
                rw [setPos_preserves_detected]
            _ = true := hasDetected_after_save _ token tx ty trader ta ea
        · exact getPos_setPos_same _ token trader hold
      · rw [if_neg hdel]
        refine ⟨fun h0 => absurd h0 hdel, fun _ => ?_, fun _ => hcount⟩
        unfold alertFanOut at hpres ⊢
        exact ⟨hpres.1, hpres.2.1⟩

/-- Claim C1: on both the AMM transfer path and the HLPMM swap path, the
commit phase writes the DetectedTransaction row and upserts the
TraderPosition snapshot exactly when at least one chat delivery succeeded in
the fan-out (the delivered count equals the number of watcher chats whose
threshold passes and whose send succeeds); when zero deliveries succeed, the
detection and position tables are left untouched. -/
theorem claim_C1_persist_iff_delivered :
    (∀ (db : DB) (disabled : List ℤ)
        (token tx trader valueS ethS hold : String) (env : DeliveryEnv) (usd : ℚ),
      (0 < (handleTransferEventCommit db disabled token tx trader valueS ethS hold env usd).2.2 →
        hasDetectedTransaction
          (handleTransferEventCommit db disabled token tx trader valueS ethS hold env usd).1
          tx = true ∧
        getTraderPosition
          (handleTransferEventCommit db disabled token tx trader valueS ethS hold env usd).1
          token trader = some ⟨lowerStr token, lowerStr trader, hold⟩) ∧
      ((handleTransferEventCommit db disabled token tx trader valueS ethS hold env usd).2.2 = 0 →
        (handleTransferEventCommit db disabled token tx trader valueS ethS hold
          env usd).1.detected_transactions = db.detected_transactions ∧
        (handleTransferEventCommit db disabled token tx trader valueS ethS hold
          env usd).1.trader_positions = db.trader_positions) ∧
      (hasDetectedTransaction db tx = false →
        (handleTransferEventCommit db disabled token tx trader valueS ethS hold env usd).2.2 =
          (getTokenWatchers db token).countP (watcherGetsAlert db env usd))) ∧
    (∀ (db : DB) (disabled : List ℤ)
        (token tx buyer amountS usidS hold : String) (env : DeliveryEnv) (usd : ℚ),
      (0 < (handleHLPMMSwapEventCommit db disabled token tx buyer amountS usidS hold env usd).2.2 →
        hasDetectedTransaction
          (handleHLPMMSwapEventCommit db disabled token tx buyer amountS usidS hold env usd).1
          tx = true ∧
        getTraderPosition
          (handleHLPMMSwapEventCommit db disabled token tx buyer amountS usidS hold env usd).1
          token buyer = some ⟨lowerStr token, lowerStr buyer, hold⟩) ∧
      ((handleHLPMMSwapEventCommit db disabled token tx buyer amountS usidS hold env usd).2.2 = 0 →
        (handleHLPMMSwapEventCommit db disabled token tx buyer amountS usidS hold
          env usd).1.detected_transactions = db.detected_transactions ∧
        (handleHLPMMSwapEventCommit db disabled token tx buyer amountS usidS hold
          env usd).1.trader_positions = db.trader_positions)) := by
  constructor
  · intro db disabled token tx trader valueS ethS hold env usd
    exact processClassifiedSwap_commit db disabled token tx "buy" trader valueS ethS hold env usd
  · intro db disabled token tx buyer amountS usidS hold env usd
    have h := processClassifiedSwap_commit db disabled token tx "buy" buyer amountS usidS hold env usd
    exact ⟨h.1, h.2.1⟩

/-- Witness for claim C1: with one watcher whose text send succeeds, the
delivered count is positive and the commit writes the detection row and the
position snapshot. -/
theorem claim_C1_witness :
    hasDetectedTransaction
      (handleTransferEventCommit ⟨[⟨1, "0xt", "T", "Token", none, none⟩], [], [], []⟩
        [] "0xT" "0xabc" "0xA" "1000" "1.0" "1500"
        ⟨fun _ => false, fun _ => true, fun _ => false⟩ 10).1 "0xabc" = true ∧
    getTraderPosition
      (handleTransferEventCommit ⟨[⟨1, "0xt", "T", "Token", none, none⟩], [], [], []⟩
        [] "0xT" "0xabc" "0xA" "1000" "1.0" "1500"
        ⟨fun _ => false, fun _ => true, fun _ => false⟩ 10).1 "0xT" "0xA" =
      some ⟨"0xt", "0xa", "1500"⟩ := by
  have hcount := (claim_C1_persist_iff_delivered.1
    ⟨[⟨1, "0xt", "T", "Token", none, none⟩], [], [], []⟩
    [] "0xT" "0xabc" "0xA" "1000" "1.0" "1500"
    ⟨fun _ => false, fun _ => true, fun _ => false⟩ 10).2.2 (by decide)
  have heval : ((getTokenWatchers ⟨[⟨1, "0xt", "T", "Token", none, none⟩], [], [], []⟩
      "0xT").countP (watcherGetsAlert ⟨[⟨1, "0xt", "T", "Token", none, none⟩], [], [], []⟩
      ⟨fun _ => false, fun _ => true, fun _ => false⟩ 10)) = 1 := by
    have hw : getTokenWatchers ⟨[⟨1, "0xt", "T", "Token", none, none⟩], [], [], []⟩ "0xT" =
        [⟨1, none, none⟩] := by decide
    rw [hw]
    simp only [List.countP, List.countP.go, watcherGetsAlert, chatDeliverySucceeds]
    norm_num [getChatSettings, mediaSendConfigured, effectiveAlertMediaType,
      effectiveAlertMediaFileId]
  have hpos : 0 < (handleTransferEventCommit
      ⟨[⟨1, "0xt", "T", "Token", none, none⟩], [], [], []⟩
      [] "0xT" "0xabc" "0xA" "1000" "1.0" "1500"
      ⟨fun _ => false, fun _ => true, fun _ => false⟩ 10).2.2 := by
    rw [hcount, heval]
    omega
  have hfields := (claim_C1_persist_iff_delivered.1
    ⟨[⟨1, "0xt", "T", "Token", none, none⟩], [], [], []⟩
    [] "0xT" "0xabc" "0xA" "1000" "1.0" "1500"
    ⟨fun _ => false, fun _ => true, fun _ => false⟩ 10).1 hpos
  have hlow1 : lowerStr "0xT" = "0xt" := by decide
  have hlow2 : lowerStr "0xA" = "0xa" := by decide
  refine ⟨hfields.1, ?_⟩
  rw [hfields.2, hlow1, hlow2]

/-- Claim C2: the detected_transactions insert reports whether it happened
and keeps transaction hashes unique; an event whose hash is already recorded
is discarded before the fan-out with nothing written and nothing delivered;
and processing the same transaction hash twice in sequence never yields two
delivered alert batches. -/
theorem claim_C2_idempotent_delivery :
    (∀ (db : DB) (token tx ty tr ta ea : String),
      (saveDetectedTransaction db token tx ty tr ta ea).2 =
        !(hasDetectedTransaction db tx) ∧
      ((db.detected_transactions.map DetectedTransactionRow.tx_hash).Nodup →
        ((saveDetectedTransaction db token tx ty tr ta ea).1.detected_transactions.map
          DetectedTransactionRow.tx_hash).Nodup)) ∧
    (∀ (db : DB) (disabled : List ℤ) (token tx ty trader ta ea hold : String)
        (env : DeliveryEnv) (usd : ℚ),
      hasDetectedTransaction db tx = true →
      processClassifiedSwap db disabled token tx ty trader ta ea hold env usd =
        (db, disabled, 0)) ∧
    (∀ (db : DB) (dis1 dis2 : List ℤ)
        (token1 ty1 trader1 ta1 ea1 hold1 token2 ty2 trader2 ta2 ea2 hold2 tx : String)
        (env1 env2 : DeliveryEnv) (usd1 usd2 : ℚ),
      ¬(0 < (processClassifiedSwap db dis1 token1 tx ty1 trader1 ta1 ea1 hold1 env1 usd1).2.2 ∧
        0 < (processClassifiedSwap
              (processClassifiedSwap db dis1 token1 tx ty1 trader1 ta1 ea1 hold1 env1 usd1).1
              dis2 token2 tx ty2 trader2 ta2 ea2 hold2 env2 usd2).2.2)) := by
  refine ⟨?_, ?_, ?_⟩
  · intro db token tx ty tr ta ea
    exact ⟨saveDetectedTransaction_inserted db token tx ty tr ta ea,
      save_preserves_hash_nodup db token tx ty tr ta ea⟩
  · intro db disabled token tx ty trader ta ea hold env usd h
    exact processClassifiedSwap_alreadyDetected db disabled token tx ty trader ta ea hold env usd h
  · rintro db dis1 dis2 token1 ty1 trader1 ta1 ea1 hold1 token2 ty2 trader2 ta2 ea2 hold2 tx
      env1 env2 usd1 usd2 ⟨h1, h2⟩
    have hdet := ((processClassifiedSwap_commit db dis1 token1 tx ty1 trader1 ta1 ea1 hold1
      env1 usd1).1 h1).1
    rw [processClassifiedSwap_alreadyDetected _ dis2 token2 tx ty2 trader2 ta2 ea2 hold2
      env2 usd2 hdet] at h2
    exact absurd h2 (by simp)

/-- Witness for claim C2: a transaction hash already present in
detected_transactions is discarded with nothing written and no delivery. -/
theorem claim_C2_witness :
    processClassifiedSwap ⟨[], [⟨"0xt", "0xabc", "buy", "0xA", "1", "1"⟩], [], []⟩
      [] "0xt" "0xabc" "buy" "0xA" "1" "1" "2"
      ⟨fun _ => false, fun _ => true, fun _ => false⟩ 10 =
    (⟨[], [⟨"0xt", "0xabc", "buy", "0xA", "1", "1"⟩], [], []⟩, [], 0) := by
  exact claim_C2_idempotent_delivery.2.1
    ⟨[], [⟨"0xt", "0xabc", "buy", "0xA", "1", "1"⟩], [], []⟩
    [] "0xt" "0xabc" "buy" "0xA" "1" "1" "2"
    ⟨fun _ => false, fun _ => true, fun _ => false⟩ 10 (by decide)

/-!
## Claim C6
-/

theorem takeWhile_length_eq_iff_all {α : Type} (p : α → Bool) (l : List α) :
    ((l.takeWhile p).length = l.length) ↔ l.all p = true := by
  induction l with
  | nil => simp
  | cons a rest ih =>
    by_cases ha : p a = true
    · simp [List.takeWhile_cons, ha, ih]
    · simp [List.takeWhile_cons, ha]

/-- The statement of claim C6 as written: any partial failure during a scan
(a failing per-token Transfer query, or a failing HLPMM swap-stream query
while HLPMM is enabled) leaves lastBlockNumber unchanged so the same range is
retried. -/
def lastHeightUnchangedOnPartialFailure : Prop :=
  ∀ (lastBlockNumber currentBlock : ℕ) (tokenQueries : List (Option (List TransferEv)))
    (hlpmmEnabled : Bool) (hlpmmQuery : Option (List TransferEv)),
    (tokenQueries.any Option.isNone = true ∨
      (hlpmmEnabled = true ∧ hlpmmQuery = none)) →
    (pollTick lastBlockNumber (some currentBlock) tokenQueries hlpmmEnabled
      hlpmmQuery).lastBlockNumber = lastBlockNumber

/-- Counterexample to claim C6: with lastBlockNumber 5, head 10, one watched
token whose Transfer query succeeds, HLPMM enabled and its swap query
failing, the tick is a partial failure, yet the code catches the HLPMM error
inside the loop and still advances lastBlockNumber to 10. -/
theorem claim_C6_counterexample : ¬ lastHeightUnchangedOnPartialFailure := by
  intro h
  have h5 := h 5 10 [some []] true none (Or.inr ⟨rfl, rfl⟩)
  have heval : (pollTick 5 (some 10) [some []] true none).lastBlockNumber = 10 := by decide
  rw [heval] at h5
  exact absurd h5 (by decide)

/-- Claim C6 amended: lastBlockNumber advances to the scanned head exactly
when the block-number read succeeds, the head advanced, and every per-token
Transfer query succeeds; those failures abandon the tick with lastBlockNumber
unchanged, but a failing HLPMM swap-stream query is caught and logged and
does not prevent the update. -/
theorem claim_C6_amended_lastHeight :
    (∀ (last : ℕ) (tq : List (Option (List TransferEv))) (he : Bool)
        (hq : Option (List TransferEv)),
      (pollTick last none tq he hq).lastBlockNumber = last) ∧
    (∀ (last cb : ℕ) (tq : List (Option (List TransferEv))) (he : Bool)
        (hq : Option (List TransferEv)),
      (pollTick last (some cb) tq he hq).lastBlockNumber =
        if last < cb ∧ tq.all Option.isSome = true then cb else last) := by
  constructor
  · intro last tq he hq
    rfl
  · intro last cb tq he hq
    unfold pollTick
    dsimp only
    by_cases hlt : last < cb
    · rw [if_pos hlt]
      by_cases hall : tq.all Option.isSome = true
      · have hlen : (tq.takeWhile Option.isSome).length = tq.length :=
          (takeWhile_length_eq_iff_all Option.isSome tq).mpr hall
        rw [if_pos hlen,
          if_pos (show last < cb ∧ tq.all Option.isSome = true from ⟨hlt, hall⟩)]
      · have hlen : ¬ (tq.takeWhile Option.isSome).length = tq.length :=
          fun hc => hall ((takeWhile_length_eq_iff_all Option.isSome tq).mp hc)
        rw [if_neg hlen, if_neg (fun hc => hall hc.2)]
    · rw [if_neg hlt, if_neg (fun hc => hlt hc.1)]

/-!
## Claim C7
-/

/-- A Transfer event involves the wallet as sender or recipient
(case-insensitively, as the topic filters of the source match addresses). -/
def involvesWallet (wallet : String) (e : TransferEv) : Prop :=
  lowerStr e.fromAddr = lowerStr wallet ∨ lowerStr e.toAddr = lowerStr wallet

/-- The priority order of the claim: a different transaction hash, in a block
strictly before the current one, or in the same block with a strictly smaller
transaction index. -/
def isPriorEvent (currentTxHash : String) (upToBlock currentTxIndex : ℕ)
    (e : TransferEv) : Prop :=
  lowerStr e.txHash ≠ lowerStr currentTxHash ∧
    (e.blockNumber < upToBlock ∨
      (e.blockNumber = upToBlock ∧ e.txIndex < currentTxIndex))

theorem windowCheck_iff (chain : List TransferEv) (wallet cur : String)
    (upTo idx startB endB : ℕ) (hwf : ∀ e ∈ chain, e.txHash ≠ "") :
    hasPriorInEvents
        (queryTransferFrom chain wallet startB endB ++
          queryTransferTo chain wallet startB endB) cur upTo idx = true ↔
      ∃ e ∈ chain, involvesWallet wallet e ∧ startB ≤ e.blockNumber ∧
        e.blockNumber ≤ endB ∧ isPriorEvent cur upTo idx e := by
  unfold hasPriorInEvents queryTransferFrom queryTransferTo
  rw [List.any_eq_true]
  constructor
  · rintro ⟨e, he, hpe⟩
    have hmem : e ∈ chain ∧ involvesWallet wallet e ∧ startB ≤ e.blockNumber ∧
        e.blockNumber ≤ endB := by
      rcases List.mem_append.mp he with hf | ht
      · have hm := List.mem_filter.mp hf
        have hp := hm.2
        simp only [Bool.and_eq_true, beq_iff_eq, decide_eq_true_eq] at hp
        exact ⟨hm.1, Or.inl hp.1.1, hp.1.2, hp.2⟩
      · have hm := List.mem_filter.mp ht
        have hp := hm.2
        simp only [Bool.and_eq_true, beq_iff_eq, decide_eq_true_eq] at hp
        exact ⟨hm.1, Or.inr hp.1.1, hp.1.2, hp.2⟩
    refine ⟨e, hmem.1, hmem.2.1, hmem.2.2.1, hmem.2.2.2, ?_, ?_⟩
    · intro hc
      rw [if_pos (Or.inr hc)] at hpe
      cases hpe
    · by_cases h1 : lowerStr e.txHash = "" ∨ lowerStr e.txHash = lowerStr cur
      · rw [if_pos h1] at hpe; cases hpe
      · rw [if_neg h1] at hpe
        by_cases h2 : e.blockNumber < upTo
        · exact Or.inl h2
        · rw [if_neg h2] at hpe
          by_cases h3 : upTo < e.blockNumber
          · rw [if_pos h3] at hpe; cases hpe
          · rw [if_neg h3] at hpe
            exact Or.inr ⟨by omega, of_decide_eq_true hpe⟩
  · rintro ⟨e, he, hinv, hrange1, hrange2, hne, hprior⟩
    refine ⟨e, ?_, ?_⟩
    · apply List.mem_append.mpr
      rcases hinv with hf | ht
      · exact Or.inl (List.mem_filter.mpr ⟨he, by
          simp only [Bool.and_eq_true, beq_iff_eq, decide_eq_true_eq]
          exact ⟨⟨hf, hrange1⟩, hrange2⟩⟩)
      · exact Or.inr (List.mem_filter.mpr ⟨he, by
          simp only [Bool.and_eq_true, beq_iff_eq, decide_eq_true_eq]
          exact ⟨⟨ht, hrange1⟩, hrange2⟩⟩)
    · have hne2 : lowerStr e.txHash ≠ "" :=
        fun hc => (hwf e he) ((lowerStr_eq_empty_iff _).mp hc)
      rw [if_neg (by
        rintro (hc | hc)
        · exact hne2 hc
        · exact hne hc)]
      rcases hprior with hlt | ⟨heq, hidx⟩
      · rw [if_pos hlt]
      · rw [if_neg (by omega), if_neg (by omega)]
        exact decide_eq_true hidx

theorem windowedPriorScan_iff (chain : List TransferEv) (wallet cur : String)
    (upTo idx : ℕ) (hwf : ∀ e ∈ chain, e.txHash ≠ "") (endB : ℕ) :
    windowedPriorScan chain wallet cur upTo idx endB = true ↔
      ∃ e ∈ chain, involvesWallet wallet e ∧ e.blockNumber ≤ endB ∧
        isPriorEvent cur upTo idx e := by
  induction endB using Nat.strong_induction_on with
  | _ endB ih =>
    rw [windowedPriorScan]
    by_cases hw : hasPriorInEvents
        (queryTransferFrom chain wallet (endB - 999) endB ++
          queryTransferTo chain wallet (endB - 999) endB) cur upTo idx = true
    · rw [if_pos hw]
      constructor
      · intro _
        obtain ⟨e, he, hinv, _, hle, hprior⟩ :=
          (windowCheck_iff chain wallet cur upTo idx (endB - 999) endB hwf).mp hw
        exact ⟨e, he, hinv, hle, hprior⟩
      · intro _
        rfl
    · rw [if_neg hw]
      by_cases hsmall : endB < 1000
      · rw [if_pos hsmall]
        constructor
        · intro hfalse
          cases hfalse
        · rintro ⟨e, he, hinv, hle, hprior⟩
          exact absurd ((windowCheck_iff chain wallet cur upTo idx (endB - 999) endB hwf).mpr
            ⟨e, he, hinv, by omega, hle, hprior⟩) hw
      · rw [if_neg hsmall]
        rw [ih (endB - 1000) (by omega)]
        constructor
        · rintro ⟨e, he, hinv, hle, hprior⟩
          exact ⟨e, he, hinv, by omega, hprior⟩
        · rintro ⟨e, he, hinv, hle, hprior⟩
          by_cases hin : endB - 999 ≤ e.blockNumber
          · exact absurd ((windowCheck_iff chain wallet cur upTo idx (endB - 999) endB hwf).mpr
              ⟨e, he, hinv, hin, hle, hprior⟩) hw
          · exact ⟨e, he, hinv, by omega, hprior⟩

/-- Claim C7: hasPriorTokenInteraction returns true exactly when some
Transfer event of the token involves the wallet as sender or recipient, with
a transaction hash different from the current one, in a block strictly before
upToBlock or in the same block with a strictly smaller transaction index —
both on the plain full-range path and on the range-limited windowed 1000-block
fallback; on any other unexpected error it returns false. Stated for a chain
whose events carry nonempty transaction hashes. -/
theorem claim_C7_hasPriorTokenInteraction (chain : List TransferEv)
    (wallet cur : String) (upTo idx : ℕ) (hwf : ∀ e ∈ chain, e.txHash ≠ "") :
    (hasPriorTokenInteraction chain wallet cur upTo idx .ok = true ↔
      ∃ e ∈ chain, involvesWallet wallet e ∧ isPriorEvent cur upTo idx e) ∧
    (hasPriorTokenInteraction chain wallet cur upTo idx .rangeLimited = true ↔
      ∃ e ∈ chain, involvesWallet wallet e ∧ isPriorEvent cur upTo idx e) ∧
    hasPriorTokenInteraction chain wallet cur upTo idx .failed = false := by
  have habsorb : ∀ e : TransferEv, isPriorEvent cur upTo idx e → e.blockNumber ≤ upTo := by
    intro e hp
    rcases hp.2 with h | h
    · omega
    · omega
  refine ⟨?_, ?_, rfl⟩
  · unfold hasPriorTokenInteraction
    rw [windowCheck_iff chain wallet cur upTo idx 0 upTo hwf]
    constructor
    · rintro ⟨e, he, hinv, _, _, hprior⟩
      exact ⟨e, he, hinv, hprior⟩
    · rintro ⟨e, he, hinv, hprior⟩
      exact ⟨e, he, hinv, Nat.zero_le _, habsorb e hprior, hprior⟩
  · unfold hasPriorTokenInteraction
    rw [windowedPriorScan_iff chain wallet cur upTo idx hwf upTo]
    constructor
    · rintro ⟨e, he, hinv, _, hprior⟩
      exact ⟨e, he, hinv, hprior⟩
    · rintro ⟨e, he, hinv, hprior⟩
      exact ⟨e, he, hinv, habsorb e hprior, hprior⟩

/-- Witness for claim C7: on a one-event chain where the wallet received
tokens in an earlier block under a different transaction hash, the full-range
path reports a prior interaction. -/
theorem claim_C7_witness :
    hasPriorTokenInteraction [⟨"0xH1", 5, 0, "0xW", "0xX"⟩] "0xX" "0xH2" 10 0 .ok = true := by
  exact (claim_C7_hasPriorTokenInteraction [⟨"0xH1", 5, 0, "0xW", "0xX"⟩] "0xX" "0xH2" 10 0
    (by decide)).1.mpr
    ⟨⟨"0xH1", 5, 0, "0xW", "0xX"⟩, by decide, Or.inr (by decide), by decide, Or.inl (by decide)⟩

/-!
## Claim C8
-/

/-- Claim C8: an HLPMM Swap event is treated as a buy exactly when tokenIn
equals the configured USID quote-currency address case-insensitively, and the
buy is admitted (with the lowercased tokenOut as traded token) exactly when
tokenOut is watched or the factory pool lookup resolves the pool to a watched
token; every other event is discarded. The pool lookup caches its result per
pool address: once a pool resolved, resolving it again answers from the cache
with the same token and an unchanged cache. -/
theorem claim_C8_hlpmm_classification :
    (∀ (usidEnv : String) (monitored : List String)
        (factory : String → Option String) (pool tokenIn tokenOut a : String),
      (hlpmmSwapAdmittedToken usidEnv monitored [] factory pool tokenIn tokenOut).1 =
          some a ↔
        (a = lowerStr tokenOut ∧ lowerStr tokenIn = lowerStr usidEnv ∧
          (monitored.contains (lowerStr tokenOut) = true ∨
            (∃ t, (resolveHLPMMPoolToken [] factory pool).1 = some t ∧
              monitored.contains t = true)))) ∧
    (∀ (cache : List (String × String)) (factory : String → Option String)
        (pool t : String) (c2 : List (String × String)),
      resolveHLPMMPoolToken cache factory pool = (some t, c2) →
      resolveHLPMMPoolToken c2 factory pool = (some t, c2)) := by
  constructor
  · intro usidEnv monitored factory pool tokenIn tokenOut a
    unfold hlpmmSwapAdmittedToken
    by_cases hin : lowerStr tokenIn ≠ lowerStr usidEnv
    · rw [if_pos hin]
      simp only [Prod.fst]
      constructor
      · intro hc
        cases hc
      · rintro ⟨_, hc, _⟩
        exact absurd hc hin
    · rw [if_neg hin]
      push_neg at hin
      by_cases hm : monitored.contains (lowerStr tokenOut) = true
      · rw [if_pos hm]
        simp only [Prod.fst, Option.some.injEq]
        constructor
        · intro h
          exact ⟨h.symm, hin, Or.inl hm⟩
        · rintro ⟨ha, _, _⟩
          exact ha.symm
      · rw [if_neg hm]
        cases hres : resolveHLPMMPoolToken [] factory pool with
        | mk fst snd =>
          cases fst with
          | none =>
            simp only
            constructor
            · intro hc
              cases hc
            · rintro ⟨_, _, hor⟩
              rcases hor with h | ⟨t, ht, _⟩
              · exact absurd h hm
              · cases ht
          | some resolved =>
            simp only
            by_cases hmr : monitored.contains resolved = true
            · rw [if_pos hmr]
              simp only [Option.some.injEq]
              constructor
              · intro h
                refine ⟨h.symm, hin, Or.inr ⟨resolved, ?_, hmr⟩⟩
                rfl
              · rintro ⟨ha, _, _⟩
                exact ha.symm
            · rw [if_neg hmr]
              constructor
              · intro hc
                cases hc
              · rintro ⟨_, _, hor⟩
                rcases hor with h | ⟨t, ht, hmt⟩
                · exact absurd h hm
                · simp only [Option.some.injEq] at ht
                  subst ht
                  exact absurd hmt hmr
  · intro cache factory pool t c2 h
    unfold resolveHLPMMPoolToken at h ⊢
    cases hl : cache.lookup (lowerStr pool) with
    | some cached =>
      rw [hl] at h
      simp only [Prod.mk.injEq, Option.some.injEq] at h
      obtain ⟨ht, hc⟩ := h
      subst ht
      subst hc
      rw [hl]
    | none =>
      rw [hl] at h
      dsimp only at h
      cases hf : factory pool with
      | none =>
        rw [hf] at h
        dsimp only at h
        simp only [Prod.mk.injEq] at h
        cases h.1
      | some tokenAddr =>
        rw [hf] at h
        dsimp only at h
        by_cases hz : tokenAddr = "" ∨ tokenAddr = zeroAddress
        · rw [if_pos hz] at h
          simp only [Prod.mk.injEq] at h
          cases h.1
        · rw [if_neg hz] at h
          simp only [Prod.mk.injEq, Option.some.injEq] at h
          obtain ⟨ht, hc⟩ := h
          subst ht
          subst hc
          simp [List.lookup]

/-- Witness for claim C8: after the factory resolves a pool once, the cached
entry answers the next resolution with the same token and cache. -/
theorem claim_C8_witness :
    resolveHLPMMPoolToken [("0xpool", "0xt")] (fun _ => some "0xT") "0xPool" =
      (some "0xt", [("0xpool", "0xt")]) := by
  exact claim_C8_hlpmm_classification.2 [] (fun _ => some "0xT") "0xPool" "0xt"
    [("0xpool", "0xt")] (by decide)

/-!
## Claim C5
-/

theorem portfolioApi_none_iff (usd eth : Option ℚ) (pax : ℚ)
    (husd : ∀ u, usd = some u → 0 < u) (heth : ∀ e, eth = some e → 0 < e)
    (hpax : 0 < pax) :
    getTokenPriceFromPortfolioApi usd eth pax = none ↔ (usd = none ∧ eth = none) := by
  cases usd with
  | none =>
    cases eth with
    | none => simp [getTokenPriceFromPortfolioApi]
    | some e =>
      have he := heth e rfl
      simp only [getTokenPriceFromPortfolioApi, Option.isNone_none, Option.isNone_some]
      rw [if_neg (by simp)]
      rw [if_neg (fun hc => hc.2 he)]
      simp
  | some u =>
    have hu := husd u rfl
    simp only [getTokenPriceFromPortfolioApi, Option.isNone_some]
    rw [if_neg (by simp)]
    rw [if_neg (fun hc => hc.1 hu)]
    simp

/-- Claim C5: getTokenPrice tries the portfolio API (deriving the missing USD
or native half from the reference rate), then the router quotes, then the
HLPMM quoter, and returns null exactly when every source fails; when the API
and both router quote paths fail, the result is exactly the HLPMM price,
which itself is the quoter spot price in USD converted to native via the
reference rate. Stated for positive API field values (parseNumericField only
accepts positive numbers) and a positive reference rate. -/
theorem claim_C5_price_fallback :
    (∀ (apiUsd apiEth : Option ℚ) (pax : ℚ) (routerOk : Bool)
        (weth usdc : Option ℚ) (hlpmm : Option TokenPrice),
      (∀ u, apiUsd = some u → 0 < u) → (∀ e, apiEth = some e → 0 < e) → 0 < pax →
      (getTokenPrice apiUsd apiEth pax routerOk weth usdc hlpmm = none ↔
        ((apiUsd = none ∧ apiEth = none) ∧
          (routerOk = false ∨ (weth = none ∧ usdc = none)) ∧ hlpmm = none))) ∧
    (∀ (pax : ℚ) (hlpmm : Option TokenPrice),
      getTokenPrice none none pax true none none hlpmm = hlpmm) ∧
    (∀ (u pax : ℚ), 0 < u → 0 < pax →
      getTokenPriceFromPortfolioApi (some u) none pax = some ⟨u / pax, u⟩) ∧
    (∀ (e pax : ℚ), 0 < e → 0 < pax →
      getTokenPriceFromPortfolioApi none (some e) pax = some ⟨e, e * pax⟩) ∧
    (∀ (pool : String) (sp pax : ℚ), 0 < sp → 0 < pax → pool ≠ "" → pool ≠ zeroAddress →
      getHLPMMTokenPrice true (some pool) (some sp) pax = some ⟨sp / pax, sp⟩) := by
  refine ⟨?_, ?_, ?_, ?_, ?_⟩
  · intro apiUsd apiEth pax routerOk weth usdc hlpmm husd heth hpax
    cases happi : getTokenPriceFromPortfolioApi apiUsd apiEth pax with
    | some p =>
      have hnotnone : ¬(apiUsd = none ∧ apiEth = none) := by
        rintro ⟨h1, h2⟩
        subst h1; subst h2
        rw [show getTokenPriceFromPortfolioApi none none pax = none by
          simp [getTokenPriceFromPortfolioApi]] at happi
        cases happi
      unfold getTokenPrice
      rw [happi]
      constructor
      · intro hc
        cases hc
      · rintro ⟨hboth, _, _⟩
        exact absurd hboth hnotnone
    | none =>
      have hboth : apiUsd = none ∧ apiEth = none :=
        (portfolioApi_none_iff apiUsd apiEth pax husd heth hpax).mp happi
      unfold getTokenPrice
      rw [happi]
      cases routerOk with
      | false =>
        simp only [Bool.not_false, if_true]
        constructor
        · intro h
          exact ⟨hboth, Or.inl (by trivial), h⟩
        · rintro ⟨_, _, h⟩
          exact h
      | true =>
        simp only [Bool.not_true, Bool.false_eq_true, if_false]
        cases weth with
        | none =>
          cases usdc with
          | none =>
            constructor
            · intro h
              exact ⟨hboth, Or.inr ⟨rfl, rfl⟩, h⟩
            · rintro ⟨_, _, h⟩
              exact h
          | some u => simp
        | some e =>
          cases usdc with
          | none =>
            by_cases hz : normalizeUsdPrice (e * pax) = 0
            · simp [hz]
            · simp [hz]
          | some u => simp
  · intro pax hlpmm
    rfl
  · intro u pax hu hpax
    simp only [getTokenPriceFromPortfolioApi, Option.isNone_some, Option.isNone_none]
    rw [if_neg (by simp)]
    rw [if_pos (show 0 < u ∧ 0 < pax from ⟨hu, hpax⟩)]
    have houter : ¬(¬(0 < u) ∧ ¬(0 < u / pax)) := fun hc => hc.1 hu
    rw [if_neg houter]
    unfold normalizeUsdPrice
    rw [if_neg (by linarith)]
  · intro e pax he hpax
    simp only [getTokenPriceFromPortfolioApi, Option.isNone_some, Option.isNone_none]
    rw [if_neg (by simp)]
    simp only [Option.getD_some]
    have hpos : 0 < e * pax := mul_pos he hpax
    have houter : ¬(¬(0 < e * pax) ∧ ¬(0 < e)) := fun hc => hc.1 hpos
    rw [if_neg houter]
    unfold normalizeUsdPrice
    rw [if_neg (by linarith)]
  · intro pool sp pax hsp hpax hne hnz
    unfold getHLPMMTokenPrice
    simp only [Bool.not_true, Bool.false_eq_true, if_false]
    rw [if_neg (by
      rintro (h | h)
      · exact hne h
      · exact hnz h)]
    rw [show normalizeUsdPrice sp = sp by
      unfold normalizeUsdPrice
      rw [if_neg (by linarith)]]
    rw [if_pos hpax]

/-- Witness for claim C5: with the API and both router quotes failing, the
price is the HLPMM quoter result, the quoter spot price 6 converted at
reference rate 2 into 3 native units. -/
theorem claim_C5_witness :
    getTokenPrice none none 2 true none none
        (getHLPMMTokenPrice true (some "0xp") (some 6) 2) =
      some ⟨3, 6⟩ := by
  have h2 := claim_C5_price_fallback.2.1 2 (getHLPMMTokenPrice true (some "0xp") (some 6) 2)
  have h5 := claim_C5_price_fallback.2.2.2.2 "0xp" 6 2 (by norm_num) (by norm_num)
    (by decide) (by decide)
  rw [h2, h5]
  norm_num

end Buybot
